import Mathlib

/-!
# Verification of the CASK in-memory key-value store (`src/main.go`)

Shallow embedding of the TTL-aware store, the command dispatcher and the
RESP-like frame decoder of `main.go`.

Modelling conventions:

* `time.Time` and `time.Duration` are modelled as `Int` nanoseconds
  (Go stores both as integer nanoseconds).  `time.Now().After(t)` is the
  strict comparison `t < now`; `time.Until(t)` is `t - now`.
* Go's `int(d.Seconds())` (float division by 1e9 followed by conversion to
  `int`, which truncates toward zero) is modelled as `Int.tdiv` by `10^9`;
  for durations of integer nanoseconds within the float's exact range the
  two agree.
* The Go `map[string]Entry` is modelled as an association list with unique
  keys maintained by construction; map assignment is erase-then-append
  (Go map iteration order is unspecified, so entry position is not
  observable).
* `filepath.Match` is an external Go standard library function whose
  pattern semantics no claim depends on; `Keys` receives the compiled
  predicate as an abstract argument `pmatch`.
* Strings are Lean `String`s; the byte stream of a connection is a
  `List Char` (all protocol-relevant text is ASCII, where Go bytes and
  characters coincide; `strings.ToUpper` is modelled on ASCII).
-/

set_option autoImplicit false

/-- One stored entry: value, absolute expiry timestamp (nanoseconds) and
the flag saying whether the expiry applies (`main.go` lines 224-228). -/
structure Entry where
  value : String
  expiresAt : Int
  hasExpiry : Bool
deriving DecidableEq, Repr

/-- The Go `map[string]Entry` of the `Store`, as an association list. -/
abbrev Smap := List (String × Entry)

/-- Go map read `m[k]`: the entry at key `k`, if present. -/
def mapLookup : Smap → String → Option Entry
  | [], _ => none
  | (k', e) :: rest, k => if k' = k then some e else mapLookup rest k

/-- Go `delete(m, k)`: removes the binding of `k`, if any. -/
def mapErase : Smap → String → Smap
  | [], _ => []
  | (k', e) :: rest, k =>
      if k' = k then mapErase rest k else (k', e) :: mapErase rest k

/-- Go map assignment `m[k] = e` (position of the binding is not
observable, since Go map iteration order is unspecified). -/
def mapInsert (m : Smap) (k : String) (e : Entry) : Smap :=
  mapErase m k ++ [(k, e)]

/-- `entry.hasExpiry && time.Now().After(entry.expiresAt)`: the lazy-expiry
test used by `Get`, `Exists`, `Keys`, and the sweeper. -/
def isExpired (now : Int) (e : Entry) : Bool :=
  e.hasExpiry && decide (e.expiresAt < now)

/-- Removal of every expired entry, the common effect of one pass of
`cleanupExpiredKeys` (lines 380-392) and of the scan in `Keys`. -/
def sweep : Smap → Int → Smap
  | [], _ => []
  | (k, e) :: rest, now =>
      if isExpired now e then sweep rest now else (k, e) :: sweep rest now

namespace Store

/-- `Store.Set` (lines 243-253): unconditionally overwrites the entry;
`ttlSeconds > 0` installs expiry `now + ttlSeconds` seconds, otherwise the
fresh entry has the zero-value expiry fields (no expiry). -/
def Set (now : Int) (key value : String) (ttlSeconds : Int) (m : Smap) : Smap :=
  let entry :=
    if ttlSeconds > 0 then
      Entry.mk value (now + ttlSeconds * 1000000000) true
    else
      Entry.mk value 0 false
  mapInsert m key entry

/-- `Store.Get` (lines 255-268): returns `("", false)` on a missing key;
lazily deletes and returns `("", false)` on an expired key; otherwise the
value with no side effect. -/
def Get (now : Int) (m : Smap) (key : String) : (String × Bool) × Smap :=
  match mapLookup m key with
  | none => (("", false), m)
  | some e =>
      if isExpired now e then (("", false), mapErase m key)
      else ((e.value, true), m)

/-- `Store.Del` (lines 270-280): removes the key if present (no expiry
check). -/
def Del (m : Smap) (key : String) : Bool × Smap :=
  match mapLookup m key with
  | none => (false, m)
  | some _ => (true, mapErase m key)

/-- `Store.Exists` (lines 282-294): same liveness semantics as `Get`,
including the lazy deletion of an expired key. -/
def Exists (now : Int) (m : Smap) (key : String) : Bool × Smap :=
  match mapLookup m key with
  | none => (false, m)
  | some e =>
      if isExpired now e then (false, mapErase m key) else (true, m)

/-- `Store.Persist` (lines 296-307): clears the expiry flag of an existing
key (value and stored timestamp untouched); false if absent. -/
def Persist (m : Smap) (key : String) : Bool × Smap :=
  match mapLookup m key with
  | none => (false, m)
  | some e => (true, mapInsert m key (Entry.mk e.value e.expiresAt false))

/-- `Store.FlushAll` (lines 309-314): replaces the map with a fresh empty
one. -/
def FlushAll (_ : Smap) : Smap := []

/-- `Store.Keys` (lines 316-332): scans the whole map, deleting every
expired entry encountered and collecting the surviving keys accepted by
`filepath.Match` (abstracted as `pmatch`). -/
def Keys (pmatch : String → Bool) (now : Int) (m : Smap) : List String × Smap :=
  let m' := sweep m now
  ((m'.filter fun p => pmatch p.1).map (fun p => p.1), m')

/-- `Store.Rename` (lines 334-345): false if `oldKey` absent; otherwise
`delete(oldKey)` then `data[newKey] = entry`, with no expiry check. -/
def Rename (m : Smap) (oldKey newKey : String) : Bool × Smap :=
  match mapLookup m oldKey with
  | none => (false, m)
  | some e => (true, mapInsert (mapErase m oldKey) newKey e)

/-- `Store.TTL` (lines 347-364): -2 if absent; -1 if no expiry; otherwise
`int(time.Until(expiresAt).Seconds())` (truncation toward zero), deleting
the key and returning -2 when that value is negative. -/
def TTL (now : Int) (m : Smap) (key : String) : Int × Smap :=
  match mapLookup m key with
  | none => (-2, m)
  | some e =>
      if !e.hasExpiry then (-1, m)
      else
        let ttl := Int.tdiv (e.expiresAt - now) 1000000000
        if ttl < 0 then (-2, mapErase m key) else (ttl, m)

/-- `Store.Expire` (lines 366-378): installs expiry `now + seconds` on an
existing key, overwriting any prior expiry; false if absent. -/
def Expire (now : Int) (m : Smap) (key : String) (seconds : Int) : Bool × Smap :=
  match mapLookup m key with
  | none => (false, m)
  | some e =>
      (true, mapInsert m key (Entry.mk e.value (now + seconds * 1000000000) true))

end Store

/-- One tick of the background sweeper `cleanupExpiredKeys`
(lines 380-392): removes every entry past expiry. -/
def cleanupExpiredKeys (now : Int) (m : Smap) : Smap := sweep m now

/-! ## Trace semantics over the store

Every Store method, plus the sweeper tick, as one step of a state machine;
each operation carries the `time.Now()` value it observes. -/

/-- One Store operation (any client command's store call, or a sweeper
tick). -/
inductive Op where
  | opSet (now : Int) (key value : String) (ttlSeconds : Int)
  | opGet (now : Int) (key : String)
  | opDel (key : String)
  | opExists (now : Int) (key : String)
  | opPersist (key : String)
  | opFlushAll
  | opKeys (pmatch : String → Bool) (now : Int)
  | opRename (oldKey newKey : String)
  | opTTL (now : Int) (key : String)
  | opExpire (now : Int) (key : String) (seconds : Int)
  | opSweep (now : Int)

/-- The effect of one operation on the map. -/
def applyOp : Op → Smap → Smap
  | .opSet now k v t, m => Store.Set now k v t m
  | .opGet now k, m => (Store.Get now m k).2
  | .opDel k, m => (Store.Del m k).2
  | .opExists now k, m => (Store.Exists now m k).2
  | .opPersist k, m => (Store.Persist m k).2
  | .opFlushAll, m => Store.FlushAll m
  | .opKeys pm now, m => (Store.Keys pm now m).2
  | .opRename o n, m => (Store.Rename m o n).2
  | .opTTL now k, m => (Store.TTL now m k).2
  | .opExpire now k s, m => (Store.Expire now m k s).2
  | .opSweep now, m => cleanupExpiredKeys now m

/-- Running a sequence of operations left to right. -/
def runOps : List Op → Smap → Smap
  | [], m => m
  | op :: ops, m => runOps ops (applyOp op m)

/-- The operations the no-TTL-`Set` claim lists as the only ways key `k`
can stop answering `Get`: deletion of `k`, flush, rename away from `k`, or
overwrite of `k` by another `Set`. -/
def claimRemovesKey (k : String) : Op → Bool
  | .opDel j => decide (j = k)
  | .opFlushAll => true
  | .opRename o _ => decide (o = k)
  | .opSet _ j _ _ => decide (j = k)
  | _ => false

/-- The operations that can actually disturb the binding of `k`: the ones
of `claimRemovesKey` plus `Expire` of `k` (which installs an expiry) and
`Rename` onto `k` (which overwrites its entry). -/
def touchesKey (k : String) : Op → Bool
  | .opDel j => decide (j = k)
  | .opFlushAll => true
  | .opRename o n => decide (o = k) || decide (n = k)
  | .opSet _ j _ _ => decide (j = k)
  | .opExpire _ j _ => decide (j = k)
  | _ => false

/-- The operations that can remove key `k` from the map altogether
(as opposed to overwriting or mutating its entry) when `k` holds an entry
with the expiry flag unset. -/
def removesBinding (k : String) : Op → Bool
  | .opDel j => decide (j = k)
  | .opFlushAll => true
  | .opRename o _ => decide (o = k)
  | _ => false

/-- The read-path operations named by the no-implicit-expiry invariant:
`Get`, `Exists`, `Keys`, `TTL`, and the sweeper tick. -/
def readPathOp : Op → Bool
  | .opGet _ _ => true
  | .opExists _ _ => true
  | .opKeys _ _ => true
  | .opTTL _ _ => true
  | .opSweep _ => true
  | _ => false

/-! ## String helpers from the Go standard library -/

/-- `unicode.IsSpace` restricted to ASCII (the protocol text is ASCII). -/
def isSpaceChar (c : Char) : Bool :=
  c = ' ' || c = '\t' || c = '\n' || c = '\x0b' || c = '\x0c' || c = '\r'

/-- `strings.TrimSpace` on a character list. -/
def trimSpaceChars (l : List Char) : List Char :=
  ((l.dropWhile isSpaceChar).reverse.dropWhile isSpaceChar).reverse

/-- Numeric value of an ASCII digit. -/
def digitVal? (c : Char) : Option Nat :=
  if '0' ≤ c ∧ c ≤ '9' then some (c.toNat - '0'.toNat) else none

/-- Decimal digits to a number; `none` on any non-digit. -/
def digitsToNatAux : List Char → Nat → Option Nat
  | [], acc => some acc
  | c :: cs, acc =>
      match digitVal? c with
      | none => none
      | some d => digitsToNatAux cs (acc * 10 + d)

/-- Decimal digits to a number; `none` if empty or on any non-digit. -/
def digitsToNat? : List Char → Option Nat
  | [] => none
  | l => digitsToNatAux l 0

/-- `strconv.Atoi`: optional sign then decimal digits (arbitrary
precision; the int64 overflow case, which the callers also treat as an
error, is not reached by any claim). -/
def atoiChars : List Char → Option Int
  | '+' :: cs => (digitsToNat? cs).map (fun n => (n : Int))
  | '-' :: cs => (digitsToNat? cs).map (fun n => -(n : Int))
  | cs => (digitsToNat? cs).map (fun n => (n : Int))

/-- `strconv.Atoi` on a `String`. -/
def atoi (s : String) : Option Int := atoiChars s.data

/-- `strings.ToUpper` restricted to ASCII. -/
def upper (s : String) : String := String.mk (s.data.map Char.toUpper)

/-! ## Command dispatcher -/

/-- Bulk-string reply `$<len>\r\n<s>\r\n`. -/
def bulkReply (s : String) : String :=
  "$" ++ toString s.length ++ "\r\n" ++ s ++ "\r\n"

/-- `KEYS` reply: array header then one bulk string per key. -/
def keysReply (ks : List String) : String :=
  "*" ++ toString ks.length ++ "\r\n" ++ String.join (ks.map bulkReply)

/-- The command dispatcher: the `switch` of `handleConnection`
(lines 449-573) acting on one decoded argument list.  Returns the reply
written to the connection and the resulting store map.  `gm` is
`filepath.Match` (an external Go library function whose pattern semantics
no claim depends on), passed abstractly. -/
def dispatch (gm : String → String → Bool) (now : Int) (args : List String)
    (m : Smap) : String × Smap :=
  match args with
  | [] => ("-ERR no command received\r\n", m)
  | a0 :: _ =>
    let command := upper a0
    let n := args.length
    if command = "PING" then
      if n = 1 then ("+PONG\r\n", m)
      else if n = 2 then (bulkReply (args.getD 1 ""), m)
      else ("-ERR wrong number of arguments for PING\r\n", m)
    else if command = "SET" then
      if n < 3 ∨ n > 5 then
        ("-ERR SET requires 2 arguments, optionally with EX <seconds>\r\n", m)
      else if n ≥ 4 ∧ upper (args.getD 3 "") = "EX" then
        if n ≠ 5 then ("-ERR wrong number of arguments for SET with EX\r\n", m)
        else
          match atoi (args.getD 4 "") with
          | none => ("-ERR invalid TTL\r\n", m)
          | some ttl =>
              if ttl < 0 then ("-ERR invalid TTL\r\n", m)
              else ("+OK\r\n", Store.Set now (args.getD 1 "") (args.getD 2 "") ttl m)
      else ("+OK\r\n", Store.Set now (args.getD 1 "") (args.getD 2 "") 0 m)
    else if command = "GET" then
      if n ≠ 2 then ("-ERR GET needs 1 argument\r\n", m)
      else
        let r := Store.Get now m (args.getD 1 "")
        (if r.1.2 then bulkReply r.1.1 else "$-1\r\n", r.2)
    else if command = "DEL" then
      if n ≠ 2 then ("-ERR DEL needs 1 argument\r\n", m)
      else
        let r := Store.Del m (args.getD 1 "")
        (if r.1 then ":1\r\n" else ":0\r\n", r.2)
    else if command = "EXISTS" then
      if n ≠ 2 then ("-ERR EXISTS needs 1 argument\r\n", m)
      else
        let r := Store.Exists now m (args.getD 1 "")
        (if r.1 then ":1\r\n" else ":0\r\n", r.2)
    else if command = "PERSIST" then
      if n ≠ 2 then ("-ERR PERSIST needs 1 argument\r\n", m)
      else
        let r := Store.Persist m (args.getD 1 "")
        (if r.1 then ":1\r\n" else ":0\r\n", r.2)
    else if command = "FLUSHALL" then
      ("+OK\r\n", Store.FlushAll m)
    else if command = "KEYS" then
      if n ≠ 2 then ("-ERR KEYS needs 1 argument\r\n", m)
      else
        let r := Store.Keys (gm (args.getD 1 "")) now m
        (keysReply r.1, r.2)
    else if command = "RENAME" then
      if n ≠ 3 then ("-ERR RENAME needs 2 arguments\r\n", m)
      else
        let r := Store.Exists now m (args.getD 1 "")
        if !r.1 then ("-ERR no such key\r\n", r.2)
        else ("+OK\r\n", (Store.Rename r.2 (args.getD 1 "") (args.getD 2 "")).2)
    else if command = "TTL" then
      if n ≠ 2 then ("-ERR TTL needs 1 argument\r\n", m)
      else
        let r := Store.TTL now m (args.getD 1 "")
        (":" ++ toString r.1 ++ "\r\n", r.2)
    else if command = "EXPIRE" then
      if n ≠ 3 then ("-ERR EXPIRE needs 2 arguments\r\n", m)
      else
        match atoi (args.getD 2 "") with
        | none => ("-ERR invalid TTL\r\n", m)
        | some s =>
            if s < 0 then ("-ERR invalid TTL\r\n", m)
            else
              let r := Store.Expire now m (args.getD 1 "") s
              (if r.1 then ":1\r\n" else ":0\r\n", r.2)
    else ("-ERR unknown command '" ++ a0 ++ "'\r\n", m)

/-! ## Protocol decoder -/

/-- `bufio.Reader.ReadString` up to and including a newline; `none` models
the error case (stream exhausted before any newline). -/
def readLine : List Char → Option (List Char × List Char)
  | [] => none
  | c :: rest =>
      if c = '\n' then some ([c], rest)
      else
        match readLine rest with
        | none => none
        | some (line, rest') => some (c :: line, rest')

/-- Does the line start with the given character? (`strings.HasPrefix`
with a one-character prefix.) -/
def lineStartsWith (l : List Char) (c : Char) : Bool :=
  match l with
  | [] => false
  | c' :: _ => decide (c' = c)

/-- The bulk-string reading loop of `handleConnection` (lines 420-442):
reads `count` elements of the form `$<len> EOL <len bytes> EOL`.
`Except.error r` means the loop wrote the error reply `r` and returned,
closing the connection. -/
def readBulks : Nat → List Char → Except String (List String × List Char)
  | 0, input => .ok ([], input)
  | n + 1, input =>
      match readLine input with
      | none => .error "-ERR expected bulk string\r\n"
      | some (line, rest) =>
          if ¬ lineStartsWith line '$' then .error "-ERR expected bulk string\r\n"
          else
            match atoiChars (trimSpaceChars (line.drop 1)) with
            | none => .error "-ERR invalid bulk length\r\n"
            | some len =>
                if len < 0 then .error "-ERR invalid bulk length\r\n"
                else if rest.length < len.toNat + 2 then
                  .error "-ERR could not read bulk string\r\n"
                else
                  match readBulks n (rest.drop (len.toNat + 2)) with
                  | .error e => .error e
                  | .ok (as, r) => .ok (String.mk (rest.take len.toNat) :: as, r)

/-- Outcome of one iteration of the `handleConnection` read loop, up to the
point where a decoded argument list would be handed to the command
`switch`. -/
inductive FrameResult where
  | closed (replies : List String)
  | errReply (reply : String) (rest : List Char)
  | frame (args : List String) (rest : List Char)
deriving DecidableEq

/-- One iteration of the `handleConnection` read loop (lines 399-447):
either the connection is closed — `closed rs` lists the replies written on
the way out — or a recoverable error reply is written and the loop
continues, or a frame is decoded for dispatch. -/
def processFrame (input : List Char) : FrameResult :=
  match readLine input with
  | none => .closed []
  | some (line, rest) =>
      let l := trimSpaceChars line
      if l.length = 0 ∨ ¬ lineStartsWith l '*' then
        .errReply "-ERR expected array input\r\n" rest
      else
        match atoiChars (l.drop 1) with
        | none => .errReply "-ERR invalid argument count\r\n" rest
        | some count =>
            if count ≤ 0 then .errReply "-ERR invalid argument count\r\n" rest
            else
              match readBulks count.toNat rest with
              | .error e => .closed [e]
              | .ok (args, rest') =>
                  if args.length = 0 then
                    .errReply "-ERR no command received\r\n" rest'
                  else .frame args rest'

/-! ## Basic association-list lemmas -/

theorem mapLookup_eq_none_append (m₁ m₂ : Smap) (k : String)
    (h : mapLookup m₁ k = none) :
    mapLookup (m₁ ++ m₂) k = mapLookup m₂ k := by
  induction m₁ with
  | nil => rfl
  | cons p rest ih =>
      obtain ⟨k', e⟩ := p
      by_cases hk : k' = k
      · simp [mapLookup, hk] at h
      · simp only [List.cons_append, mapLookup, if_neg hk] at h ⊢
        exact ih h

theorem mapLookup_erase_self (m : Smap) (k : String) :
    mapLookup (mapErase m k) k = none := by
  induction m with
  | nil => rfl
  | cons p rest ih =>
      obtain ⟨k', e⟩ := p
      by_cases hk : k' = k
      · simpa [mapErase, hk] using ih
      · simpa [mapErase, hk, mapLookup] using ih

theorem mapLookup_erase_ne (m : Smap) (k k' : String) (h : k' ≠ k) :
    mapLookup (mapErase m k) k' = mapLookup m k' := by
  induction m with
  | nil => rfl
  | cons p rest ih =>
      obtain ⟨k₀, e⟩ := p
      simp only [mapErase, mapLookup]
      by_cases hk : k₀ = k
      · rw [if_pos hk, ih, if_neg (fun hk' : k₀ = k' => h (hk'.symm.trans hk))]
      · rw [if_neg hk]
        by_cases hk' : k₀ = k'
        · simp only [mapLookup, if_pos hk']
        · simp only [mapLookup, if_neg hk']
          exact ih

theorem mapLookup_insert_self (m : Smap) (k : String) (e : Entry) :
    mapLookup (mapInsert m k e) k = some e := by
  unfold mapInsert
  rw [mapLookup_eq_none_append _ _ _ (mapLookup_erase_self m k)]
  simp [mapLookup]

theorem mapLookup_append (m₁ m₂ : Smap) (k : String) :
    mapLookup (m₁ ++ m₂) k =
      match mapLookup m₁ k with
      | some e => some e
      | none => mapLookup m₂ k := by
  induction m₁ with
  | nil => rfl
  | cons p rest ih =>
      obtain ⟨k₀, e₀⟩ := p
      by_cases hk : k₀ = k
      · simp [mapLookup, hk]
      · simpa [mapLookup, hk] using ih

theorem mapLookup_insert_ne (m : Smap) (k k' : String) (e : Entry) (h : k' ≠ k) :
    mapLookup (mapInsert m k e) k' = mapLookup m k' := by
  unfold mapInsert
  rw [mapLookup_append, mapLookup_erase_ne m k k' h]
  cases hm : mapLookup m k' with
  | none => simp only [mapLookup, if_neg (fun hh : k = k' => h hh.symm)]
  | some e' => rfl

/-- An unexpired binding survives the expiry scan (of the sweeper or of
`Keys`) unchanged, and stays the binding its key resolves to. -/
theorem mapLookup_sweep_of_not_expired (m : Smap) (now : Int) (k : String)
    (e : Entry) (h : mapLookup m k = some e) (hx : isExpired now e = false) :
    mapLookup (sweep m now) k = some e := by
  induction m with
  | nil => simp [mapLookup] at h
  | cons p rest ih =>
      obtain ⟨k₀, e₀⟩ := p
      by_cases hk : k₀ = k
      · simp only [mapLookup, if_pos hk] at h
        injection h with h₂
        subst h₂
        simp [sweep, hx, mapLookup, hk]
      · simp only [mapLookup, if_neg hk] at h
        by_cases hx₀ : isExpired now e₀
        · simpa [sweep, hx₀] using ih h
        · simpa [sweep, hx₀, mapLookup, hk] using ih h

/-! ## Claim theorems: store operations -/

/-- C9: `Get` returns the value with the map completely unchanged when the
key is present and unexpired; `("", false)` with the map unchanged when the
key is absent; and `("", false)` on a present-but-expired key, removing
exactly that key (its binding is gone, every other binding unchanged). -/
theorem Get_frame_spec (now : Int) (m : Smap) (k : String) :
    (mapLookup m k = none → Store.Get now m k = (("", false), m)) ∧
    (∀ e, mapLookup m k = some e → isExpired now e = false →
        Store.Get now m k = ((e.value, true), m)) ∧
    (∀ e, mapLookup m k = some e → isExpired now e = true →
        Store.Get now m k = (("", false), mapErase m k) ∧
        mapLookup (Store.Get now m k).2 k = none ∧
        (∀ k', k' ≠ k → mapLookup (Store.Get now m k).2 k' = mapLookup m k')) := by
  refine ⟨fun h => by simp [Store.Get, h], fun e he hx => by simp [Store.Get, he, hx],
    fun e he hx => ⟨by simp [Store.Get, he, hx], ?_, ?_⟩⟩
  · simp [Store.Get, he, hx, mapLookup_erase_self]
  · intro k' hk'
    simp [Store.Get, he, hx, mapLookup_erase_ne m k k' hk']

/-- C9 witness: `Get` on key "a", expired at time 10, removes exactly "a"
and keeps "b". -/
theorem Get_frame_spec_witness :
    Store.Get 10 [("a", Entry.mk "v" 5 true), ("b", Entry.mk "w" 0 false)] "a"
      = (("", false), [("b", Entry.mk "w" 0 false)]) :=
  ((Get_frame_spec 10 [("a", Entry.mk "v" 5 true), ("b", Entry.mk "w" 0 false)] "a").2.2
    (Entry.mk "v" 5 true) (by decide) (by decide)).1

/-- C2 counterexample: key "a" expired half a second ago (expiry 0, time
500000000 ns).  The floor of the remaining -0.5 s is -1, which is
negative, so the claim requires removal and -2 — but `TTL` converts with
truncation toward zero, returns 0 and keeps the key. -/
theorem TTL_floor_counterexample :
    Store.TTL 500000000 [("a", Entry.mk "v" 0 true)] "a"
      = (0, [("a", Entry.mk "v" 0 true)]) ∧
    Int.fdiv (0 - 500000000) 1000000000 = -1 ∧
    (0 : Int) ≠ -2 := by decide

/-- C2 amended: `TTL` returns -2 when the key is absent, -1 when it has no
expiry, and otherwise the remaining seconds truncated toward zero (not
floored): when that truncation is negative — the key expired at least one
full second ago — the key is removed and -2 returned; a key expired by
less than one second yields 0 and is not removed. -/
theorem TTL_spec (now : Int) (m : Smap) (k : String) :
    (mapLookup m k = none → Store.TTL now m k = (-2, m)) ∧
    (∀ e, mapLookup m k = some e → e.hasExpiry = false →
        Store.TTL now m k = (-1, m)) ∧
    (∀ e, mapLookup m k = some e → e.hasExpiry = true →
        (0 ≤ Int.tdiv (e.expiresAt - now) 1000000000 →
            Store.TTL now m k = (Int.tdiv (e.expiresAt - now) 1000000000, m)) ∧
        (Int.tdiv (e.expiresAt - now) 1000000000 < 0 →
            Store.TTL now m k = (-2, mapErase m k))) := by
  refine ⟨fun h => by simp [Store.TTL, h], fun e he hx => by simp [Store.TTL, he, hx],
    fun e he hx => ⟨fun hpos => ?_, fun hneg => ?_⟩⟩
  · simp [Store.TTL, he, hx, not_lt.mpr hpos]
  · simp [Store.TTL, he, hx, hneg]

/-- C2 amended, witness: a key that expired 0.5 s ago has truncated
remainder 0 and `TTL` returns 0 leaving the map unchanged. -/
theorem TTL_spec_witness :
    Store.TTL 500000000 [("a", Entry.mk "v" 0 true)] "a"
      = (Int.tdiv (0 - 500000000) 1000000000, [("a", Entry.mk "v" 0 true)]) :=
  ((TTL_spec 500000000 [("a", Entry.mk "v" 0 true)] "a").2.2
    (Entry.mk "v" 0 true) (by decide) rfl).1 (by decide)

/-- C5: `Persist` returns false exactly when the key is absent; on any
present key — even one whose expiry timestamp has already passed — it
returns true, clears only the expiry flag (value and stored timestamp
untouched, other bindings untouched), and a subsequent `TTL` of the key
returns -1. -/
theorem Persist_spec (m : Smap) (k : String) (now : Int) :
    (mapLookup m k = none → Store.Persist m k = (false, m)) ∧
    (∀ e, mapLookup m k = some e →
        Store.Persist m k = (true, mapInsert m k (Entry.mk e.value e.expiresAt false)) ∧
        mapLookup (Store.Persist m k).2 k = some (Entry.mk e.value e.expiresAt false) ∧
        (Store.TTL now (Store.Persist m k).2 k).1 = -1 ∧
        (∀ k', k' ≠ k → mapLookup (Store.Persist m k).2 k' = mapLookup m k')) := by
  refine ⟨fun h => by simp [Store.Persist, h], fun e he => ⟨by simp [Store.Persist, he], ?_, ?_, ?_⟩⟩
  · simp [Store.Persist, he, mapLookup_insert_self]
  · simp [Store.Persist, he, Store.TTL, mapLookup_insert_self]
  · intro k' hk'
    simp [Store.Persist, he, mapLookup_insert_ne m k k' _ hk']

/-- C5 witness: `Persist` on a logically expired but unswept key clears
the flag and the subsequent `TTL` is -1. -/
theorem Persist_spec_witness :
    Store.Persist [("a", Entry.mk "v" 5 true)] "a"
      = (true, mapInsert [("a", Entry.mk "v" 5 true)] "a" (Entry.mk "v" 5 false)) ∧
    (Store.TTL 99 (Store.Persist [("a", Entry.mk "v" 5 true)] "a").2 "a").1 = -1 :=
  ⟨((Persist_spec [("a", Entry.mk "v" 5 true)] "a" 99).2 (Entry.mk "v" 5 true) (by decide)).1,
   ((Persist_spec [("a", Entry.mk "v" 5 true)] "a" 99).2 (Entry.mk "v" 5 true) (by decide)).2.2.1⟩

/-- C6: `Rename` returns false and changes nothing iff the old key is
absent; otherwise it returns true, removes the old key and then binds the
new key to the exact previous entry (value, expiry timestamp and flag
unchanged), overwriting any prior entry at the new key and leaving every
other binding unchanged.  No expiry check is made: the statement holds for
every entry, expired or not, and mentions no clock. -/
theorem Rename_spec (m : Smap) (oldKey newKey : String) :
    (mapLookup m oldKey = none → Store.Rename m oldKey newKey = (false, m)) ∧
    (∀ e, mapLookup m oldKey = some e →
        Store.Rename m oldKey newKey = (true, mapInsert (mapErase m oldKey) newKey e) ∧
        mapLookup (Store.Rename m oldKey newKey).2 newKey = some e ∧
        (oldKey ≠ newKey → mapLookup (Store.Rename m oldKey newKey).2 oldKey = none) ∧
        (∀ k, k ≠ oldKey → k ≠ newKey →
            mapLookup (Store.Rename m oldKey newKey).2 k = mapLookup m k)) := by
  refine ⟨fun h => by simp [Store.Rename, h],
    fun e he => ⟨by simp [Store.Rename, he], ?_, ?_, ?_⟩⟩
  · simp [Store.Rename, he, mapLookup_insert_self]
  · intro hne
    simp [Store.Rename, he, mapLookup_insert_ne _ newKey oldKey _ hne,
      mapLookup_erase_self]
  · intro k hko hkn
    simp [Store.Rename, he, mapLookup_insert_ne _ newKey k _ hkn,
      mapLookup_erase_ne m oldKey k hko]

/-- C6 witness: renaming a present-but-expired key moves its entry intact
onto an occupied target key and removes the source key. -/
theorem Rename_spec_witness :
    Store.Rename [("a", Entry.mk "v" 5 true), ("b", Entry.mk "w" 0 false)] "a" "b"
      = (true, mapInsert (mapErase [("a", Entry.mk "v" 5 true), ("b", Entry.mk "w" 0 false)] "a")
          "b" (Entry.mk "v" 5 true)) ∧
    mapLookup (Store.Rename [("a", Entry.mk "v" 5 true), ("b", Entry.mk "w" 0 false)] "a" "b").2 "a"
      = none :=
  ⟨((Rename_spec [("a", Entry.mk "v" 5 true), ("b", Entry.mk "w" 0 false)] "a" "b").2
      (Entry.mk "v" 5 true) (by decide)).1,
   ((Rename_spec [("a", Entry.mk "v" 5 true), ("b", Entry.mk "w" 0 false)] "a" "b").2
      (Entry.mk "v" 5 true) (by decide)).2.2.1 (by decide)⟩

/-- C10: on a key that is present though its expiry timestamp has already
passed (not yet lazily or actively removed), `Expire` with non-negative
`s` returns true and installs the fresh expiry `now + s` seconds, and any
`Get` at a time within those `s` seconds finds the old value again
(`found = true`, no side effect). -/
theorem Expire_resurrect (m : Smap) (k : String) (now s : Int) (e : Entry)
    (he : mapLookup m k = some e) (_hs : 0 ≤ s)
    (_hexp : e.hasExpiry = true) (_hpast : e.expiresAt < now) :
    Store.Expire now m k s
      = (true, mapInsert m k (Entry.mk e.value (now + s * 1000000000) true)) ∧
    (∀ now', now' ≤ now + s * 1000000000 →
        Store.Get now' (Store.Expire now m k s).2 k
          = ((e.value, true), (Store.Expire now m k s).2)) := by
  refine ⟨by simp [Store.Expire, he], fun now' hnow' => ?_⟩
  have hlook : mapLookup (Store.Expire now m k s).2 k
      = some (Entry.mk e.value (now + s * 1000000000) true) := by
    simp [Store.Expire, he, mapLookup_insert_self]
  have hnx : isExpired now' (Entry.mk e.value (now + s * 1000000000) true) = false := by
    simp [isExpired, not_lt.mpr hnow']
  simp [Store.Get, hlook, hnx]

/-- C10 witness: key expired at time 5, resurrected at time 10 with a
2-second TTL, found again by `Get` at time 11. -/
theorem Expire_resurrect_witness :
    Store.Expire 10 [("a", Entry.mk "v" 5 true)] "a" 2
      = (true, mapInsert [("a", Entry.mk "v" 5 true)] "a"
          (Entry.mk "v" (10 + 2 * 1000000000) true)) ∧
    Store.Get 11 (Store.Expire 10 [("a", Entry.mk "v" 5 true)] "a" 2).2 "a"
      = (("v", true), (Store.Expire 10 [("a", Entry.mk "v" 5 true)] "a" 2).2) :=
  ⟨(Expire_resurrect [("a", Entry.mk "v" 5 true)] "a" 10 2 (Entry.mk "v" 5 true)
      (by decide) (by decide) rfl (by decide)).1,
   (Expire_resurrect [("a", Entry.mk "v" 5 true)] "a" 10 2 (Entry.mk "v" 5 true)
      (by decide) (by decide) rfl (by decide)).2 11 (by decide)⟩

/-! ## Preservation helpers: operations never disturb a non-expiring binding -/

/-- `Get` (of any key) never disturbs the binding of a key whose entry can
never test as expired. -/
theorem Get_preserves_binding (now : Int) (m : Smap) (j k : String) (e : Entry)
    (he : mapLookup m k = some e) (hnx : ∀ t : Int, isExpired t e = false) :
    mapLookup (Store.Get now m j).2 k = some e := by
  unfold Store.Get
  cases hj : mapLookup m j with
  | none => simpa using he
  | some ej =>
      by_cases hjk : j = k
      · subst hjk
        rw [he] at hj
        injection hj with hj
        subst hj
        simp [hnx, he]
      · by_cases hx : isExpired now ej
        · simp [hx, mapLookup_erase_ne m j k (fun hh => hjk hh.symm), he]
        · simp [hx, he]

/-- `Exists` (of any key) never disturbs the binding of a key whose entry
can never test as expired. -/
theorem Exists_preserves_binding (now : Int) (m : Smap) (j k : String) (e : Entry)
    (he : mapLookup m k = some e) (hnx : ∀ t : Int, isExpired t e = false) :
    mapLookup (Store.Exists now m j).2 k = some e := by
  unfold Store.Exists
  cases hj : mapLookup m j with
  | none => simpa using he
  | some ej =>
      by_cases hjk : j = k
      · subst hjk
        rw [he] at hj
        injection hj with hj
        subst hj
        simp [hnx, he]
      · by_cases hx : isExpired now ej
        · simp [hx, mapLookup_erase_ne m j k (fun hh => hjk hh.symm), he]
        · simp [hx, he]

/-- `TTL` (of any key) never disturbs the binding of a key whose entry has
the expiry flag unset. -/
theorem TTL_preserves_binding (now : Int) (m : Smap) (j k : String) (e : Entry)
    (he : mapLookup m k = some e) (hflag : e.hasExpiry = false) :
    mapLookup (Store.TTL now m j).2 k = some e := by
  unfold Store.TTL
  cases hj : mapLookup m j with
  | none => simpa using he
  | some ej =>
      by_cases hjk : j = k
      · subst hjk
        rw [he] at hj
        injection hj with hj
        subst hj
        simp [hflag, he]
      · by_cases hxf : ej.hasExpiry
        · by_cases hneg : Int.tdiv (ej.expiresAt - now) 1000000000 < 0
          · simp [hxf, hneg, mapLookup_erase_ne m j k (fun hh => hjk hh.symm), he]
          · simp [hxf, hneg, he]
        · simp [hxf, he]

/-- `Persist` (of any key) never disturbs the binding of a key whose entry
has the expiry flag unset (persisting that key itself rewrites the same
entry). -/
theorem Persist_preserves_binding (m : Smap) (j k : String) (e : Entry)
    (he : mapLookup m k = some e) (hflag : e.hasExpiry = false) :
    mapLookup (Store.Persist m j).2 k = some e := by
  unfold Store.Persist
  cases hj : mapLookup m j with
  | none => simpa using he
  | some ej =>
      by_cases hjk : j = k
      · subst hjk
        rw [he] at hj
        injection hj with hj
        subst hj
        have : Entry.mk e.value e.expiresAt false = e := by
          cases e
          simp_all
        simp [this, mapLookup_insert_self]
      · simp [mapLookup_insert_ne m j k _ (fun hh => hjk hh.symm), he]

/-- C8: an entry whose expiry flag is unset is never removed implicitly.
First conjunct: each read-path operation (`Get`, `Exists`, `Keys`, `TTL`,
and a sweeper tick, on any argument) leaves its binding exactly in place.
Second conjunct: after any operation other than an explicit `Del` of the
key, `FlushAll`, or a `Rename` away from the key, the key is still bound
— it disappears from the map only through those (a `Set` of the key, and
a `Rename` onto it, overwrite the entry but keep the key resident). -/
theorem no_implicit_removal (m : Smap) (k : String) (e : Entry)
    (he : mapLookup m k = some e) (hflag : e.hasExpiry = false) :
    (∀ op, readPathOp op = true → mapLookup (applyOp op m) k = some e) ∧
    (∀ op, removesBinding k op = false →
        ∃ e', mapLookup (applyOp op m) k = some e') := by
  have hnx : ∀ t : Int, isExpired t e = false := fun t => by
    simp [isExpired, hflag]
  constructor
  · intro op hop
    cases op with
    | opGet now j => exact Get_preserves_binding now m j k e he hnx
    | opExists now j => exact Exists_preserves_binding now m j k e he hnx
    | opKeys pm now => exact mapLookup_sweep_of_not_expired m now k e he (hnx now)
    | opTTL now j => exact TTL_preserves_binding now m j k e he hflag
    | opSweep now => exact mapLookup_sweep_of_not_expired m now k e he (hnx now)
    | opSet now j v t => simp [readPathOp] at hop
    | opDel j => simp [readPathOp] at hop
    | opPersist j => simp [readPathOp] at hop
    | opFlushAll => simp [readPathOp] at hop
    | opRename o n => simp [readPathOp] at hop
    | opExpire now j s => simp [readPathOp] at hop
  · intro op hop
    cases op with
    | opSet now j v t =>
        show ∃ e', mapLookup (Store.Set now j v t m) k = some e'
        unfold Store.Set
        by_cases hjk : j = k
        · subst hjk
          exact ⟨_, mapLookup_insert_self ..⟩
        · refine ⟨e, ?_⟩
          rw [mapLookup_insert_ne m j k _ (fun hh => hjk hh.symm)]
          exact he
    | opGet now j => exact ⟨e, Get_preserves_binding now m j k e he hnx⟩
    | opDel j =>
        simp only [removesBinding, decide_eq_false_iff_not] at hop
        show ∃ e', mapLookup (Store.Del m j).2 k = some e'
        unfold Store.Del
        cases hj : mapLookup m j with
        | none => exact ⟨e, by simpa using he⟩
        | some ej =>
            refine ⟨e, ?_⟩
            simpa [mapLookup_erase_ne m j k (fun hh => hop hh.symm)] using he
    | opExists now j => exact ⟨e, Exists_preserves_binding now m j k e he hnx⟩
    | opPersist j => exact ⟨e, Persist_preserves_binding m j k e he hflag⟩
    | opFlushAll => simp [removesBinding] at hop
    | opKeys pm now => exact ⟨e, mapLookup_sweep_of_not_expired m now k e he (hnx now)⟩
    | opRename o n =>
        simp only [removesBinding, decide_eq_false_iff_not] at hop
        show ∃ e', mapLookup (Store.Rename m o n).2 k = some e'
        unfold Store.Rename
        cases ho : mapLookup m o with
        | none => exact ⟨e, by simpa using he⟩
        | some eo =>
            by_cases hnk : n = k
            · subst hnk
              exact ⟨eo, by simpa using mapLookup_insert_self ..⟩
            · refine ⟨e, ?_⟩
              have h1 := mapLookup_insert_ne (mapErase m o) n k eo (fun hh => hnk hh.symm)
              have h2 := mapLookup_erase_ne m o k (fun hh => hop hh.symm)
              simpa [h1, h2] using he
    | opTTL now j => exact ⟨e, TTL_preserves_binding now m j k e he hflag⟩
    | opSweep now => exact ⟨e, mapLookup_sweep_of_not_expired m now k e he (hnx now)⟩
    | opExpire now j s =>
        show ∃ e', mapLookup (Store.Expire now m j s).2 k = some e'
        unfold Store.Expire
        cases hj : mapLookup m j with
        | none => exact ⟨e, by simpa using he⟩
        | some ej =>
            by_cases hjk : j = k
            · subst hjk
              exact ⟨_, by simpa using mapLookup_insert_self ..⟩
            · refine ⟨e, ?_⟩
              simpa [mapLookup_insert_ne m j k _ (fun hh => hjk hh.symm)] using he

/-- C8 witness: a sweeper tick leaves the flag-unset key "k" bound to its
exact entry, and a `Del` of another key keeps "k" resident. -/
theorem no_implicit_removal_witness :
    mapLookup (applyOp (Op.opSweep 50)
        [("k", Entry.mk "v" 0 false), ("j", Entry.mk "w" 1 true)]) "k"
      = some (Entry.mk "v" 0 false) ∧
    ∃ e', mapLookup (applyOp (Op.opDel "j")
        [("k", Entry.mk "v" 0 false), ("j", Entry.mk "w" 1 true)]) "k" = some e' :=
  ⟨(no_implicit_removal [("k", Entry.mk "v" 0 false), ("j", Entry.mk "w" 1 true)]
      "k" (Entry.mk "v" 0 false) (by decide) rfl).1 (Op.opSweep 50) rfl,
   (no_implicit_removal [("k", Entry.mk "v" 0 false), ("j", Entry.mk "w" 1 true)]
      "k" (Entry.mk "v" 0 false) (by decide) rfl).2 (Op.opDel "j") (by decide)⟩

/-- Any single operation that neither deletes key `k`, flushes, renames
from or onto `k`, overwrites `k` by `Set`, nor gives `k` an expiry by
`Expire`, leaves a no-expiry binding of `k` exactly in place. -/
theorem untouched_preserves (k v : String) (op : Op) (m : Smap)
    (hop : touchesKey k op = false)
    (h : mapLookup m k = some (Entry.mk v 0 false)) :
    mapLookup (applyOp op m) k = some (Entry.mk v 0 false) := by
  have hnx : ∀ t : Int, isExpired t (Entry.mk v 0 false) = false := fun t => rfl
  cases op with
  | opSet now j vv t =>
      simp only [touchesKey, decide_eq_false_iff_not] at hop
      show mapLookup (Store.Set now j vv t m) k = _
      unfold Store.Set
      rw [mapLookup_insert_ne m j k _ (fun hh => hop hh.symm)]
      exact h
  | opGet now j => exact Get_preserves_binding now m j k _ h hnx
  | opDel j =>
      simp only [touchesKey, decide_eq_false_iff_not] at hop
      show mapLookup (Store.Del m j).2 k = _
      unfold Store.Del
      cases hj : mapLookup m j with
      | none => simpa using h
      | some ej =>
          simpa [mapLookup_erase_ne m j k (fun hh => hop hh.symm)] using h
  | opExists now j => exact Exists_preserves_binding now m j k _ h hnx
  | opPersist j => exact Persist_preserves_binding m j k _ h rfl
  | opFlushAll => simp [touchesKey] at hop
  | opKeys pm now => exact mapLookup_sweep_of_not_expired m now k _ h (hnx now)
  | opRename o n =>
      simp only [touchesKey, Bool.or_eq_false_iff, decide_eq_false_iff_not] at hop
      obtain ⟨ho, hn⟩ := hop
      show mapLookup (Store.Rename m o n).2 k = _
      unfold Store.Rename
      cases hj : mapLookup m o with
      | none => simpa using h
      | some eo =>
          have h1 := mapLookup_insert_ne (mapErase m o) n k eo (fun hh => hn hh.symm)
          have h2 := mapLookup_erase_ne m o k (fun hh => ho hh.symm)
          simpa [h1, h2] using h
  | opTTL now j => exact TTL_preserves_binding now m j k _ h rfl
  | opExpire now j s =>
      simp only [touchesKey, decide_eq_false_iff_not] at hop
      show mapLookup (Store.Expire now m j s).2 k = _
      unfold Store.Expire
      cases hj : mapLookup m j with
      | none => simpa using h
      | some ej =>
          simpa [mapLookup_insert_ne m j k _ (fun hh => hop hh.symm)] using h
  | opSweep now => exact mapLookup_sweep_of_not_expired m now k _ h (hnx now)

/-- A whole operation sequence none of whose elements touches `k` leaves a
no-expiry binding of `k` in place. -/
theorem runOps_untouched (k v : String) (ops : List Op) :
    ∀ m, (∀ op ∈ ops, touchesKey k op = false) →
      mapLookup m k = some (Entry.mk v 0 false) →
      mapLookup (runOps ops m) k = some (Entry.mk v 0 false) := by
  induction ops with
  | nil => exact fun m _ h => h
  | cons op ops ih =>
      intro m hall h
      exact ih (applyOp op m) (fun o ho => hall o (List.mem_cons_of_mem _ ho))
        (untouched_preserves k v op m (hall op (List.mem_cons_self _ _)) h)

/-- C7 counterexample: `Expire` is none of the four terminators the claim
lists (delete, flush, rename-away, overwrite by `Set`), yet after
`Set("k","v",0)` a single `Expire("k",0)` at time 0 makes a later `Get`
return `("", false)` instead of `("v", true)`. -/
theorem Set_no_ttl_counterexample :
    (∀ op ∈ [Op.opExpire 0 "k" 0], claimRemovesKey "k" op = false) ∧
    (Store.Get 2000000000
        (runOps [Op.opExpire 0 "k" 0] (Store.Set 0 "k" "v" 0 [])) "k").1
      = ("", false) ∧
    (("", false) : String × Bool) ≠ ("v", true) := by
  refine ⟨?_, by decide, by decide⟩
  intro op hop
  rw [List.mem_singleton] at hop
  subst hop
  rfl

/-- C7 amended: after `Set(k, v, ttl)` with `ttl ≤ 0` the entry for `k`
has no expiry regardless of any prior expiry on `k`, and `Get(k)` returns
`(v, true)` at every later time until `k` is deleted, flushed, renamed
away **or renamed onto**, overwritten by another `Set`, **or given an
expiry by `Expire`** (the last two are missing from the original claim's
terminator list). -/
theorem Set_no_ttl_persistent (m : Smap) (k v : String) (ttl now : Int)
    (httl : ttl ≤ 0) :
    mapLookup (Store.Set now k v ttl m) k = some (Entry.mk v 0 false) ∧
    (∀ ops, (∀ op ∈ ops, touchesKey k op = false) → ∀ now',
        Store.Get now' (runOps ops (Store.Set now k v ttl m)) k
          = ((v, true), runOps ops (Store.Set now k v ttl m))) := by
  have hset : mapLookup (Store.Set now k v ttl m) k = some (Entry.mk v 0 false) := by
    unfold Store.Set
    simp [not_lt.mpr httl, mapLookup_insert_self]
  refine ⟨hset, fun ops hall now' => ?_⟩
  have h := runOps_untouched k v ops (Store.Set now k v ttl m) hall hset
  simp [Store.Get, h, isExpired]

/-- C7 amended, witness: after `Set("k","v",0)` over a prior expiring
binding of "k", a `Del` of another key and a sweeper tick do not disturb
it and `Get` still finds `("v", true)`. -/
theorem Set_no_ttl_persistent_witness :
    Store.Get 9 (runOps [Op.opDel "j", Op.opSweep 5]
        (Store.Set 0 "k" "v" 0 [("k", Entry.mk "old" 1 true)])) "k"
      = (("v", true), runOps [Op.opDel "j", Op.opSweep 5]
          (Store.Set 0 "k" "v" 0 [("k", Entry.mk "old" 1 true)])) :=
  (Set_no_ttl_persistent [("k", Entry.mk "old" 1 true)] "k" "v" 0 0 (by decide)).2
    [Op.opDel "j", Op.opSweep 5]
    (by
      intro op hop
      rw [List.mem_cons, List.mem_singleton] at hop
      rcases hop with rfl | rfl <;> rfl) 9

/-! ## Claim theorems: protocol decoder -/

/-- C1 counterexample: for the frame `*2\r\n$abc\r\n` the array header
decodes successfully, the bulk length "abc" does not parse — and the
decoder closes the connection having first written the reply
"-ERR invalid bulk length", so a reply IS sent for that frame. -/
theorem decoder_fatal_counterexample :
    processFrame ("*2\r\n$abc\r\n".data)
      = .closed ["-ERR invalid bulk length\r\n"] ∧
    ["-ERR invalid bulk length\r\n"] ≠ ([] : List String) := by decide

/-- C1 amended: for every frame whose array header decoded successfully
(`*`-line with a positive count), if the bulk-reading loop fails — the
bulk header is malformed (no `$`), its length does not parse as a
non-negative integer, or the `length + 2`-byte read comes up short — the
decoder writes exactly one error reply for that frame and terminates the
connection (it dispatches nothing and sends no further replies). -/
theorem decoder_fatal_spec (input line rest : List Char) (count : Int) (e : String)
    (h1 : readLine input = some (line, rest))
    (h2 : (trimSpaceChars line).length ≠ 0)
    (h3 : lineStartsWith (trimSpaceChars line) '*' = true)
    (h4 : atoiChars ((trimSpaceChars line).drop 1) = some count)
    (h5 : 0 < count)
    (h6 : readBulks count.toNat rest = .error e) :
    processFrame input = .closed [e] := by
  unfold processFrame
  rw [h1]
  simp only [h2, h3, not_true, or_false, if_false, h4, if_neg (not_le.mpr h5), h6]

/-- C1 amended, witness: the scenario frame `*2\r\n$abc\r\n` closes the
connection with exactly the one reply "-ERR invalid bulk length". -/
theorem decoder_fatal_spec_witness :
    processFrame ("*2\r\n$abc\r\n".data) = .closed ["-ERR invalid bulk length\r\n"] :=
  decoder_fatal_spec ("*2\r\n$abc\r\n".data) ("*2\r\n".data) ("$abc\r\n".data) 2
    "-ERR invalid bulk length\r\n" (by decide) (by decide) (by decide) (by decide)
    (by decide) rfl

/-! ## Claim theorems: command dispatcher -/

/-- C3 counterexample: `FLUSHALL extra` (two arguments, table arity 1) is
not rejected: the dispatcher replies `+OK` — not an error reply (no
leading `-`) — and the store is flushed, not left unchanged. -/
theorem flushall_arity_counterexample :
    dispatch (fun _ _ => false) 0 ["FLUSHALL", "extra"] [("a", Entry.mk "v" 0 false)]
      = ("+OK\r\n", []) ∧
    ("+OK\r\n").data.head? ≠ some '-' ∧
    ([] : Smap) ≠ [("a", Entry.mk "v" 0 false)] := by decide

/-- C3 amended: every command except FLUSHALL validates its argument
count before invoking a Store operation, replying with an error and
leaving the store unchanged on a wrong count (for SET this covers counts
outside 3..5; its acceptance of some 4- and 5-argument shapes is the
subject of the SET claim); FLUSHALL performs no arity check at all: with
any argument count it flushes the store and replies `+OK`. -/
theorem dispatch_arity_spec (gm : String → String → Bool) (now : Int)
    (a0 : String) (rest : List String) (m : Smap) :
    (upper a0 = "FLUSHALL" → dispatch gm now (a0 :: rest) m = ("+OK\r\n", [])) ∧
    (upper a0 = "PING" → 1 < rest.length →
        dispatch gm now (a0 :: rest) m
          = ("-ERR wrong number of arguments for PING\r\n", m)) ∧
    (upper a0 = "SET" → (rest.length < 2 ∨ 4 < rest.length) →
        dispatch gm now (a0 :: rest) m
          = ("-ERR SET requires 2 arguments, optionally with EX <seconds>\r\n", m)) ∧
    (upper a0 = "GET" → rest.length ≠ 1 →
        dispatch gm now (a0 :: rest) m = ("-ERR GET needs 1 argument\r\n", m)) ∧
    (upper a0 = "DEL" → rest.length ≠ 1 →
        dispatch gm now (a0 :: rest) m = ("-ERR DEL needs 1 argument\r\n", m)) ∧
    (upper a0 = "EXISTS" → rest.length ≠ 1 →
        dispatch gm now (a0 :: rest) m = ("-ERR EXISTS needs 1 argument\r\n", m)) ∧
    (upper a0 = "PERSIST" → rest.length ≠ 1 →
        dispatch gm now (a0 :: rest) m = ("-ERR PERSIST needs 1 argument\r\n", m)) ∧
    (upper a0 = "KEYS" → rest.length ≠ 1 →
        dispatch gm now (a0 :: rest) m = ("-ERR KEYS needs 1 argument\r\n", m)) ∧
    (upper a0 = "RENAME" → rest.length ≠ 2 →
        dispatch gm now (a0 :: rest) m = ("-ERR RENAME needs 2 arguments\r\n", m)) ∧
    (upper a0 = "TTL" → rest.length ≠ 1 →
        dispatch gm now (a0 :: rest) m = ("-ERR TTL needs 1 argument\r\n", m)) ∧
    (upper a0 = "EXPIRE" → rest.length ≠ 2 →
        dispatch gm now (a0 :: rest) m = ("-ERR EXPIRE needs 2 arguments\r\n", m)) := by
  refine ⟨?_, ?_, ?_, ?_, ?_, ?_, ?_, ?_, ?_, ?_, ?_⟩
  · intro h
    simp [dispatch, h, Store.FlushAll]
  · intro h hn
    simp [dispatch, h]
    rw [if_neg (fun hh => by simp [hh] at hn), if_neg (by omega)]
  · intro h hn
    simp [dispatch, h]
    intro h1 h2
    exact absurd hn (by omega)
  all_goals
    intro h hn
    simp [dispatch, h]
    intro hlen
    exact absurd hlen hn

/-- C3 amended, witness: `FLUSHALL extra extra2` flushes a nonempty store
and replies `+OK`; `GET` with no key gets an arity error with the store
unchanged. -/
theorem dispatch_arity_spec_witness :
    dispatch (fun _ _ => false) 3 ["FLUSHALL", "extra", "extra2"]
        [("a", Entry.mk "v" 0 false)] = ("+OK\r\n", []) ∧
    dispatch (fun _ _ => false) 3 ["GET"] [("a", Entry.mk "v" 0 false)]
      = ("-ERR GET needs 1 argument\r\n", [("a", Entry.mk "v" 0 false)]) :=
  ⟨(dispatch_arity_spec (fun _ _ => false) 3 "FLUSHALL" ["extra", "extra2"]
      [("a", Entry.mk "v" 0 false)]).1 (by decide),
   (dispatch_arity_spec (fun _ _ => false) 3 "GET" []
      [("a", Entry.mk "v" 0 false)]).2.2.2.1 (by decide) (by decide)⟩

/-- C4 counterexample: `SET k v XX` — four arguments whose fourth is not
`EX` — is accepted: the dispatcher replies `+OK` (no error) and writes the
key, instead of rejecting the shape and leaving the store unchanged. -/
theorem set_shape_counterexample :
    dispatch (fun _ _ => false) 7 ["SET", "k", "v", "XX"] []
      = ("+OK\r\n", [("k", Entry.mk "v" 0 false)]) ∧
    ("+OK\r\n").data.head? ≠ some '-' ∧
    [("k", Entry.mk "v" 0 false)] ≠ ([] : Smap) := by decide

/-- C4 amended: SET is accepted with exactly 3 arguments; with exactly 5
whose fourth is `EX` (case-insensitive) and whose fifth parses as a
non-negative integer; and also with 4 or 5 arguments whose fourth is not
`EX` — those trailing arguments are silently ignored and the key is set
without expiry.  Error replies with the store unchanged are produced only
for: fewer than 3 or more than 5 arguments; exactly 4 arguments whose
fourth is `EX`; and 5 arguments with `EX` whose fifth is not a
non-negative integer. -/
theorem dispatch_set_spec (gm : String → String → Bool) (now : Int)
    (a0 : String) (rest : List String) (m : Smap)
    (h : upper a0 = "SET") :
    (rest.length < 2 ∨ 4 < rest.length →
        dispatch gm now (a0 :: rest) m
          = ("-ERR SET requires 2 arguments, optionally with EX <seconds>\r\n", m)) ∧
    (rest.length = 2 →
        dispatch gm now (a0 :: rest) m
          = ("+OK\r\n", Store.Set now (rest.getD 0 "") (rest.getD 1 "") 0 m)) ∧
    (rest.length = 3 → upper (rest.getD 2 "") = "EX" →
        dispatch gm now (a0 :: rest) m
          = ("-ERR wrong number of arguments for SET with EX\r\n", m)) ∧
    (rest.length = 3 → upper (rest.getD 2 "") ≠ "EX" →
        dispatch gm now (a0 :: rest) m
          = ("+OK\r\n", Store.Set now (rest.getD 0 "") (rest.getD 1 "") 0 m)) ∧
    (rest.length = 4 → upper (rest.getD 2 "") ≠ "EX" →
        dispatch gm now (a0 :: rest) m
          = ("+OK\r\n", Store.Set now (rest.getD 0 "") (rest.getD 1 "") 0 m)) ∧
    (rest.length = 4 → upper (rest.getD 2 "") = "EX" → atoi (rest.getD 3 "") = none →
        dispatch gm now (a0 :: rest) m = ("-ERR invalid TTL\r\n", m)) ∧
    (∀ t, rest.length = 4 → upper (rest.getD 2 "") = "EX" →
        atoi (rest.getD 3 "") = some t → t < 0 →
        dispatch gm now (a0 :: rest) m = ("-ERR invalid TTL\r\n", m)) ∧
    (∀ t, rest.length = 4 → upper (rest.getD 2 "") = "EX" →
        atoi (rest.getD 3 "") = some t → 0 ≤ t →
        dispatch gm now (a0 :: rest) m
          = ("+OK\r\n", Store.Set now (rest.getD 0 "") (rest.getD 1 "") t m)) := by
  refine ⟨?_, ?_, ?_, ?_, ?_, ?_, ?_, ?_⟩
  · intro hn
    simp [dispatch, h]
    intro h1 h2
    exact absurd hn (by omega)
  · intro hlen
    simp [dispatch, h, hlen]
  · intro hlen hex
    rw [List.getD_eq_getElem rest "" (by omega)] at hex
    simp [dispatch, h, hlen, hex]
  · intro hlen hex
    rw [List.getD_eq_getElem rest "" (by omega)] at hex
    simp [dispatch, h, hlen, hex]
  · intro hlen hex
    rw [List.getD_eq_getElem rest "" (by omega)] at hex
    simp [dispatch, h, hlen]
    intro hc
    exact absurd hc hex
  · intro hlen hex hatoi
    rw [List.getD_eq_getElem rest "" (by omega)] at hex
    rw [List.getD_eq_getElem rest "" (by omega)] at hatoi
    simp [dispatch, h, hlen, hex, hatoi]
  · intro t hlen hex hatoi ht
    rw [List.getD_eq_getElem rest "" (by omega)] at hex
    rw [List.getD_eq_getElem rest "" (by omega)] at hatoi
    simp [dispatch, h, hlen, hex, hatoi, ht]
  · intro t hlen hex hatoi ht
    rw [List.getD_eq_getElem rest "" (by omega)] at hex
    rw [List.getD_eq_getElem rest "" (by omega)] at hatoi
    simp [dispatch, h, hlen, hex, hatoi, not_lt.mpr ht]

/-- C4 amended, witness: `SET k v ex 7` (case-insensitive `EX`) sets the
key with TTL 7, and `SET k v PX 7` (fourth argument not `EX`) is accepted
with no expiry. -/
theorem dispatch_set_spec_witness :
    dispatch (fun _ _ => false) 0 ["SET", "k", "v", "ex", "7"] []
      = ("+OK\r\n", Store.Set 0 "k" "v" 7 []) ∧
    dispatch (fun _ _ => false) 0 ["SET", "k", "v", "PX", "7"] []
      = ("+OK\r\n", Store.Set 0 "k" "v" 0 []) :=
  ⟨(dispatch_set_spec (fun _ _ => false) 0 "SET" ["k", "v", "ex", "7"] [] (by decide)).2.2.2.2.2.2.2
      7 (by decide) (by decide) (by decide) (by decide),
   (dispatch_set_spec (fun _ _ => false) 0 "SET" ["k", "v", "PX", "7"] [] (by decide)).2.2.2.2.1
      (by decide) (by decide)⟩
